import Mathlib

/-!
# Verification of the brainpoolP256 base-field arithmetic (`bp256/src/arithmetic/field.rs`)

Shallow embedding of the `FieldElement` type and its operations.  Machine
integers (`U256`, `u64`) are modelled as `Nat` with explicit reductions
modulo `2^w` or the field modulus where the code performs them.  `CtOption`
is modelled as `Option`, `Choice` as `Bool`, the unit struct
`elliptic_curve::Error` as a one-constructor inductive, and a guaranteed
panic (`todo!`) as `Except.error`.

The fiat-crypto arithmetic kernels (`field/bp256_64.rs` /
`field/bp256_32.rs`, behind `mod field_impl`) and the `primeorder`
Bernstein-Yang inversion macro are not part of the sources; they are
modelled from the specification, as noted on each such definition.
-/

set_option maxRecDepth 100000

namespace BP256

/-- The modulus `p` of the brainpoolP256 base field
(`MODULUS`/`MODULUS_HEX` in `field.rs`). -/
def MODULUS : Nat := 0xa9fb57dba1eea9bc3e660a909d838d726e3bf623d52620282013481d1f6e5377

/-- The Montgomery radix `R = 2^256` of the internal residue form
(the "fixed invertible constant" of the spec's data model). -/
def R : Nat := 2 ^ 256

/-- The inverse of the Montgomery radix modulo `p`
(see `RINV_spec` below for the defining property). -/
def RINV : Nat := 65852420663605644901734997783807806055610561339092913539307758511636918676198

theorem MODULUS_pos : 0 < MODULUS := by decide

theorem RINV_spec : R % MODULUS * RINV % MODULUS = 1 := by decide

/-- Modelled from the spec: `fiat_bp256_to_montgomery` (in
`field/bp256_64.rs`, absent from `src/`) converts a canonical integer into
the Montgomery residue form; the doc comment of `from_uint` in `field.rs`
gives the definition: `w * R^2 * R^-1 mod p = wR mod p`. -/
def fiat_bp256_to_montgomery (w : Nat) : Nat := w * R % MODULUS

/-- Modelled from the spec: `fiat_bp256_from_montgomery` (absent from
`src/`) translates a Montgomery residue back to canonical form, dividing by
the fixed constant `R` modulo `p`. -/
def fiat_bp256_from_montgomery (m : Nat) : Nat := m * RINV % MODULUS

/-- Modelled from the spec: `fiat_bp256_add` (absent from `src/`),
constant-time modular addition on the residue form. -/
def fiat_bp256_add (a b : Nat) : Nat := (a + b) % MODULUS

/-- Modelled from the spec: `fiat_bp256_sub` (absent from `src/`),
constant-time modular subtraction on the residue form. -/
def fiat_bp256_sub (a b : Nat) : Nat := (((a : Int) - (b : Int)) % (MODULUS : Int)).toNat

/-- Modelled from the spec: `fiat_bp256_opp` (absent from `src/`),
constant-time modular negation on the residue form. -/
def fiat_bp256_opp (a : Nat) : Nat := ((-(a : Int)) % (MODULUS : Int)).toNat

/-- Modelled from the spec: `fiat_bp256_mul` (absent from `src/`),
Montgomery multiplication: `(aR)(bR)R^-1 = (ab)R mod p`. -/
def fiat_bp256_mul (a b : Nat) : Nat := a * b * RINV % MODULUS

/-- Modelled from the spec: `fiat_bp256_square` (absent from `src/`),
modular squaring, the same value as `fiat_bp256_mul a a`. -/
def fiat_bp256_square (a : Nat) : Nat := fiat_bp256_mul a a

/-- `FieldElement` of `field.rs`: wraps one internal (Montgomery residue)
`U256` value, modelled as the `Nat` `mont`. -/
structure FieldElement where
  mont : Nat
deriving DecidableEq

/-- `FieldElement::ZERO = Self(U256::ZERO)`. -/
def FieldElement.ZERO : FieldElement := ⟨0⟩

/-- `FieldElement::from_uint_unchecked`: converts into Montgomery form
without a range check. -/
def FieldElement.from_uint_unchecked (w : Nat) : FieldElement :=
  ⟨fiat_bp256_to_montgomery w⟩

/-- `FieldElement::ONE = Self::from_uint_unchecked(U256::ONE)`. -/
def FieldElement.ONE : FieldElement := FieldElement.from_uint_unchecked 1

/-- `FieldElement::from_u64`: unchecked construction from a `u64`. -/
def FieldElement.from_u64 (w : Nat) : FieldElement :=
  FieldElement.from_uint_unchecked (w % 2 ^ 64)

/-- `FieldElement::from_uint`: validates `uint.ct_lt(&MODULUS)` and wraps
`from_uint_unchecked`; `CtOption` modelled as `Option`. -/
def FieldElement.from_uint (w : Nat) : Option FieldElement :=
  if w < MODULUS then some (FieldElement.from_uint_unchecked w) else none

/-- Big-endian interpretation of a byte list (`U256::from_be_byte_array`). -/
def beBytesToNat (bs : List Nat) : Nat := bs.foldl (fun acc b => acc * 256 + b) 0

/-- The 32-byte big-endian encoding of a 256-bit value
(`U256::to_be_byte_array`). -/
def natToBeBytes (n : Nat) : List Nat :=
  (List.range 32).map (fun i => n / 256 ^ (31 - i) % 256)

/-- `FieldElement::from_bytes`: interprets 32 big-endian bytes and defers to
`from_uint`. -/
def FieldElement.from_bytes (bs : List Nat) : Option FieldElement :=
  FieldElement.from_uint (beBytesToNat bs)

/-- The unit struct `elliptic_curve::Error`: a single-constructor type with
no data, so every error value is the same value. -/
inductive Error where
  | Error
deriving DecidableEq

/-- `FieldElement::from_slice`: length-32 check, then `from_bytes`; both the
wrong-length branch and the `ok_or` on an empty `CtOption` produce the same
unit `Error`. -/
def FieldElement.from_slice (s : List Nat) : Except Error FieldElement :=
  if s.length = 32 then
    match FieldElement.from_bytes s with
    | some e => .ok e
    | none => .error .Error
  else .error .Error

/-- `FieldElement::to_bytes`: serializes `self.0` — the raw Montgomery
residue — big-endian, with no `from_montgomery` conversion. -/
def FieldElement.to_bytes (e : FieldElement) : List Nat := natToBeBytes e.mont

/-- `FieldElement::to_canonical`: translates out of the Montgomery domain. -/
def FieldElement.to_canonical (e : FieldElement) : Nat :=
  fiat_bp256_from_montgomery e.mont

/-- `FieldElement::is_odd`: `self.to_canonical().is_odd()`; `Choice`
modelled as `Bool`. -/
def FieldElement.is_odd (e : FieldElement) : Bool := e.to_canonical % 2 = 1

/-- `FieldElement::is_even`: `!self.is_odd()`. -/
def FieldElement.is_even (e : FieldElement) : Bool := ! e.is_odd

/-- `FieldElement::is_zero`: `self.ct_eq(&Self::ZERO)`. -/
def FieldElement.is_zero (e : FieldElement) : Bool := e = FieldElement.ZERO

/-- `FieldElement::add`. -/
def FieldElement.add (a b : FieldElement) : FieldElement :=
  ⟨fiat_bp256_add a.mont b.mont⟩

/-- `FieldElement::double`: `self.add(self)`. -/
def FieldElement.double (a : FieldElement) : FieldElement := a.add a

/-- `FieldElement::sub`. -/
def FieldElement.sub (a b : FieldElement) : FieldElement :=
  ⟨fiat_bp256_sub a.mont b.mont⟩

/-- `FieldElement::multiply`. -/
def FieldElement.multiply (a b : FieldElement) : FieldElement :=
  ⟨fiat_bp256_mul a.mont b.mont⟩

/-- `FieldElement::neg`. -/
def FieldElement.neg (a : FieldElement) : FieldElement :=
  ⟨fiat_bp256_opp a.mont⟩

/-- `FieldElement::square`. -/
def FieldElement.square (a : FieldElement) : FieldElement :=
  ⟨fiat_bp256_square a.mont⟩

/-- Inner loop of `pow_vartime`: with fuel `j+1` the code squares, then
multiplies by `base` when bit `j` of the word `w` is set, and continues with
fuel `j`; started at `j = 64` this scans bits `63, 62, ..., 0`. -/
def FieldElement.powBits (base : FieldElement) (res : FieldElement) (w : Nat) :
    Nat → FieldElement
  | 0 => res
  | j + 1 =>
    let r := res.square
    let r := if (w >>> j) &&& 1 = 1 then r.multiply base else r
    FieldElement.powBits base r w j

/-- Outer loop of `pow_vartime`: with fuel `i+1` the code processes all 64
bits of word `exp[i]`, then continues with fuel `i`; started at
`i = exp.len()` this scans words from the most significant downward. -/
def FieldElement.powWords (base : FieldElement) (res : FieldElement)
    (exp : List Nat) : Nat → FieldElement
  | 0 => res
  | i + 1 =>
    FieldElement.powWords base (FieldElement.powBits base res (exp.getD i 0) 64) exp i

/-- `FieldElement::pow_vartime`: square-and-multiply over the little-endian
`u64` exponent words, most significant bit first. -/
def FieldElement.pow_vartime (base : FieldElement) (exp : List Nat) : FieldElement :=
  FieldElement.powWords base FieldElement.ONE exp exp.length

/-- `FieldElement::sqrt`: the body is `todo!("sqrt not implemented")`, a
guaranteed panic; panics are modelled as `Except.error`. -/
def FieldElement.sqrt (_a : FieldElement) : Except String (Option FieldElement) :=
  .error "sqrt not implemented"

/-- Fuel-driven modular exponentiation `a ^ e % n`, fast (binary) so that
concrete 256-bit instances evaluate in the kernel. -/
def powModAux (a n : Nat) : Nat → Nat → Nat
  | 0, _ => 1 % n
  | fuel + 1, e =>
    if e = 0 then 1 % n
    else
      let h := powModAux a n fuel (e / 2)
      if e % 2 = 0 then h * h % n else h * h % n * a % n

/-- `a ^ e % n` for `e < 2^256`. -/
def powMod (a e n : Nat) : Nat := powModAux a n 256 e

/-- Modelled from the spec: `invert_unchecked` (the
`primeorder::impl_bernstein_yang_invert!` macro body and the fiat divstep
kernels are absent from `src/`).  The spec and glossary define it as
returning the multiplicative inverse `x` with `a * x ≡ 1 (mod p)`; for the
prime modulus this is `a^(p-2) mod p` (Fermat), converted back into
Montgomery form.  Input `0` yields `0` (no inverse exists; unchecked). -/
def FieldElement.invert_unchecked (a : FieldElement) : FieldElement :=
  FieldElement.from_uint_unchecked (powMod a.to_canonical (MODULUS - 2) MODULUS)

/-- `FieldElement::invert`: `CtOption::new(self.invert_unchecked(),
!self.is_zero())`. -/
def FieldElement.invert (a : FieldElement) : Option FieldElement :=
  if a.is_zero then none else some a.invert_unchecked

/-- `PrimeField::TWO_INV = Self::from_u64(2).invert_unchecked()`. -/
def FieldElement.TWO_INV : FieldElement :=
  (FieldElement.from_u64 2).invert_unchecked

/-- `PrimeField::MULTIPLICATIVE_GENERATOR = Self::ZERO` (a `TODO`
placeholder in the source). -/
def FieldElement.MULTIPLICATIVE_GENERATOR : FieldElement := FieldElement.ZERO

/-- `PrimeField::S = 0` (a `TODO` placeholder in the source). -/
def FieldElement.S : Nat := 0

/-- `PrimeField::ROOT_OF_UNITY = Self::ZERO` (a `TODO` placeholder in the
source). -/
def FieldElement.ROOT_OF_UNITY : FieldElement := FieldElement.ZERO

/-- `PrimeField::ROOT_OF_UNITY_INV = Self::ZERO` (a `TODO` placeholder in
the source). -/
def FieldElement.ROOT_OF_UNITY_INV : FieldElement := FieldElement.ZERO

/-- `PrimeField::DELTA = Self::ZERO` (a `TODO` placeholder in the
source). -/
def FieldElement.DELTA : FieldElement := FieldElement.ZERO

/-- Little-endian integer value of a list of 64-bit exponent words. -/
def wordsVal : List Nat → Nat
  | [] => 0
  | w :: ws => w + 2 ^ 64 * wordsVal ws

/-! ## Helper lemmas about the residue (Montgomery) transform -/

theorem R_RINV_mod : R * RINV % MODULUS = 1 := by
  have h := RINV_spec
  rwa [Nat.mod_mul_mod] at h

theorem toCan_lt (e : FieldElement) : e.to_canonical < MODULUS :=
  Nat.mod_lt _ MODULUS_pos

theorem toCan_from_uint_unchecked (x : Nat) (h : x < MODULUS) :
    (FieldElement.from_uint_unchecked x).to_canonical = x := by
  show x * R % MODULUS * RINV % MODULUS = x
  rw [Nat.mod_mul_mod, mul_assoc, Nat.mul_mod (a := x), R_RINV_mod, mul_one,
    Nat.mod_eq_of_lt (Nat.mod_lt _ MODULUS_pos), Nat.mod_eq_of_lt h]

theorem from_uint_unchecked_toCan (m : Nat) (h : m < MODULUS) :
    FieldElement.from_uint_unchecked (FieldElement.to_canonical ⟨m⟩) = ⟨m⟩ := by
  show (⟨m * RINV % MODULUS * R % MODULUS⟩ : FieldElement) = ⟨m⟩
  rw [Nat.mod_mul_mod, mul_assoc, mul_comm RINV R, Nat.mul_mod (a := m), R_RINV_mod,
    mul_one, Nat.mod_eq_of_lt (Nat.mod_lt _ MODULUS_pos), Nat.mod_eq_of_lt h]

theorem toCan_inj (a b : FieldElement) (ha : a.mont < MODULUS) (hb : b.mont < MODULUS)
    (h : a.to_canonical = b.to_canonical) : a = b := by
  have h1 := from_uint_unchecked_toCan a.mont ha
  have h2 := from_uint_unchecked_toCan b.mont hb
  calc a = ⟨a.mont⟩ := rfl
    _ = FieldElement.from_uint_unchecked (FieldElement.to_canonical ⟨a.mont⟩) := h1.symm
    _ = FieldElement.from_uint_unchecked (FieldElement.to_canonical ⟨b.mont⟩) := by
        show FieldElement.from_uint_unchecked a.to_canonical
          = FieldElement.from_uint_unchecked b.to_canonical
        rw [h]
    _ = ⟨b.mont⟩ := h2
    _ = b := rfl

theorem toCan_mul (a b : FieldElement) :
    (a.multiply b).to_canonical = a.to_canonical * b.to_canonical % MODULUS := by
  show a.mont * b.mont * RINV % MODULUS * RINV % MODULUS
    = a.mont * RINV % MODULUS * (b.mont * RINV % MODULUS) % MODULUS
  rw [Nat.mod_mul_mod, Nat.mod_mul_mod, Nat.mul_mod_mod]
  have h : a.mont * b.mont * RINV * RINV = a.mont * RINV * (b.mont * RINV) := by ring
  rw [h]

theorem square_eq_multiply (a : FieldElement) : a.square = a.multiply a := rfl

theorem toCan_ONE : FieldElement.ONE.to_canonical = 1 := by decide

theorem ONE_mont_lt : FieldElement.ONE.mont < MODULUS := Nat.mod_lt _ MODULUS_pos

/-! ## Correctness of the fast modular exponentiation -/

theorem powModAux_eq (a n : Nat) :
    ∀ fuel e, e < 2 ^ fuel → powModAux a n fuel e = a ^ e % n := by
  intro fuel
  induction fuel with
  | zero =>
    intro e he
    interval_cases e
    simp [powModAux]
  | succ f ih =>
    intro e he
    by_cases h0 : e = 0
    · subst h0; simp [powModAux]
    · have hdiv : e / 2 < 2 ^ f := by
        have h2 : e < 2 ^ f * 2 := by rw [← pow_succ]; exact he
        omega
      have ihh := ih (e / 2) hdiv
      have hsq : a ^ (e / 2) % n * (a ^ (e / 2) % n) % n = a ^ (e / 2 * 2) % n := by
        rw [← Nat.mul_mod, ← pow_add]
        have h : e / 2 + e / 2 = e / 2 * 2 := by omega
        rw [h]
      simp only [powModAux, if_neg h0, ihh]
      by_cases hpar : e % 2 = 0
      · rw [if_pos hpar, hsq]
        have h : e / 2 * 2 = e := by omega
        rw [h]
      · rw [if_neg hpar, hsq, Nat.mod_mul_mod, ← pow_succ]
        have h : e / 2 * 2 + 1 = e := by omega
        rw [h]

theorem powMod_eq (a e n : Nat) (he : e < 2 ^ 256) : powMod a e n = a ^ e % n :=
  powModAux_eq a n 256 e he

/-! ## Transfer of `powMod` computations into `ZMod` -/

theorem zmod_pow_eq_one (n a e : Nat) (he : e < 2 ^ 256) (h : powMod a e n = 1 % n) :
    (a : ZMod n) ^ e = 1 := by
  have hn : a ^ e % n = 1 % n := by rw [← powMod_eq a e n he, h]
  calc (a : ZMod n) ^ e = ((a ^ e : Nat) : ZMod n) := by push_cast; ring
    _ = ((a ^ e % n : Nat) : ZMod n) := (ZMod.natCast_mod _ _).symm
    _ = ((1 % n : Nat) : ZMod n) := by rw [hn]
    _ = ((1 : Nat) : ZMod n) := ZMod.natCast_mod 1 n
    _ = 1 := Nat.cast_one

theorem zmod_pow_ne_one (n a e c : Nat) (h1 : 1 < n) (he : e < 2 ^ 256)
    (h : powMod a e n = c) (hc : c ≠ 1) : (a : ZMod n) ^ e ≠ 1 := by
  haveI : NeZero n := ⟨by omega⟩
  haveI : Fact (1 < n) := ⟨h1⟩
  have hcn : c < n := by
    have := powMod_eq a e n he
    rw [h] at this
    rw [this]
    exact Nat.mod_lt _ (by omega)
  have hcast : (a : ZMod n) ^ e = ((c : Nat) : ZMod n) := by
    calc (a : ZMod n) ^ e = ((a ^ e : Nat) : ZMod n) := by push_cast; ring
      _ = ((a ^ e % n : Nat) : ZMod n) := (ZMod.natCast_mod _ _).symm
      _ = ((c : Nat) : ZMod n) := by rw [← powMod_eq a e n he, h]
  intro hone
  rw [hcast] at hone
  have hval : ((c : Nat) : ZMod n).val = (1 : ZMod n).val := by rw [hone]
  rw [ZMod.val_cast_of_lt hcn, ZMod.val_one n] at hval
  exact hc hval

/-! ## Primality of the modulus (Pratt / Lucas certificate chain) -/

theorem prime_2 : Nat.Prime 2 := by norm_num

theorem prime_5 : Nat.Prime 5 := by norm_num

theorem prime_23 : Nat.Prime 23 := by norm_num

theorem prime_1667 : Nat.Prime 1667 := by norm_num

theorem prime_149459 : Nat.Prime 149459 := by norm_num

theorem prime_17543087 : Nat.Prime 17543087 := by norm_num

theorem prime_3 : Nat.Prime 3 := by norm_num

theorem prime_1609 : Nat.Prime 1609 := by norm_num

theorem prime_8039 : Nat.Prime 8039 := by norm_num

theorem prime_858397 : Nat.Prime 858397 := by norm_num

theorem prime_25659209 : Nat.Prime 25659209 := by norm_num

/-- Lucas primality certificate for `1139592334882447158893` (witness `2`). -/
theorem prime_1139592334882447158893 : Nat.Prime 1139592334882447158893 := by
  apply lucas_primality 1139592334882447158893 ((2 : Nat) : ZMod 1139592334882447158893)
  · exact zmod_pow_eq_one 1139592334882447158893 2 (1139592334882447158893 - 1) (by decide) (by decide)
  · intro q hq hdvd
    have hfac : (1139592334882447158893 : Nat) - 1 = 2 ^ 2 * (1609 * (8039 * (858397 * (25659209)))) := by decide
    rw [hfac] at hdvd
    rcases (Nat.Prime.dvd_mul hq).mp hdvd with h | hdvd
    · have hd := Nat.Prime.dvd_of_dvd_pow hq h
      have he := (Nat.prime_dvd_prime_iff_eq hq prime_2).mp hd
      subst he
      exact zmod_pow_ne_one 1139592334882447158893 2 ((1139592334882447158893 - 1) / 2) 1139592334882447158892 (by decide) (by decide) (by decide) (by decide)
    rcases (Nat.Prime.dvd_mul hq).mp hdvd with h | hdvd
    · have hd := h
      have he := (Nat.prime_dvd_prime_iff_eq hq prime_1609).mp hd
      subst he
      exact zmod_pow_ne_one 1139592334882447158893 2 ((1139592334882447158893 - 1) / 1609) 257242016088741773941 (by decide) (by decide) (by decide) (by decide)
    rcases (Nat.Prime.dvd_mul hq).mp hdvd with h | hdvd
    · have hd := h
      have he := (Nat.prime_dvd_prime_iff_eq hq prime_8039).mp hd
      subst he
      exact zmod_pow_ne_one 1139592334882447158893 2 ((1139592334882447158893 - 1) / 8039) 161994669538778215238 (by decide) (by decide) (by decide) (by decide)
    rcases (Nat.Prime.dvd_mul hq).mp hdvd with h | hdvd
    · have hd := h
      have he := (Nat.prime_dvd_prime_iff_eq hq prime_858397).mp hd
      subst he
      exact zmod_pow_ne_one 1139592334882447158893 2 ((1139592334882447158893 - 1) / 858397) 2765759162330038444 (by decide) (by decide) (by decide) (by decide)
    have h := hdvd
    have hd := h
    have he := (Nat.prime_dvd_prime_iff_eq hq prime_25659209).mp hd
    subst he
    exact zmod_pow_ne_one 1139592334882447158893 2 ((1139592334882447158893 - 1) / 25659209) 659196016859333662714 (by decide) (by decide) (by decide) (by decide)

theorem prime_607 : Nat.Prime 607 := by norm_num

theorem prime_10434257 : Nat.Prime 10434257 := by norm_num

/-- Lucas primality certificate for `187816627` (witness `2`). -/
theorem prime_187816627 : Nat.Prime 187816627 := by
  apply lucas_primality 187816627 ((2 : Nat) : ZMod 187816627)
  · exact zmod_pow_eq_one 187816627 2 (187816627 - 1) (by decide) (by decide)
  · intro q hq hdvd
    have hfac : (187816627 : Nat) - 1 = 2 * (3 ^ 2 * (10434257)) := by decide
    rw [hfac] at hdvd
    rcases (Nat.Prime.dvd_mul hq).mp hdvd with h | hdvd
    · have hd := h
      have he := (Nat.prime_dvd_prime_iff_eq hq prime_2).mp hd
      subst he
      exact zmod_pow_ne_one 187816627 2 ((187816627 - 1) / 2) 187816626 (by decide) (by decide) (by decide) (by decide)
    rcases (Nat.Prime.dvd_mul hq).mp hdvd with h | hdvd
    · have hd := Nat.Prime.dvd_of_dvd_pow hq h
      have he := (Nat.prime_dvd_prime_iff_eq hq prime_3).mp hd
      subst he
      exact zmod_pow_ne_one 187816627 2 ((187816627 - 1) / 3) 133092851 (by decide) (by decide) (by decide) (by decide)
    have h := hdvd
    have hd := h
    have he := (Nat.prime_dvd_prime_iff_eq hq prime_10434257).mp hd
    subst he
    exact zmod_pow_ne_one 187816627 2 ((187816627 - 1) / 10434257) 262144 (by decide) (by decide) (by decide) (by decide)

theorem prime_13 : Nat.Prime 13 := by norm_num

theorem prime_2851 : Nat.Prime 2851 := by norm_num

theorem prime_22709 : Nat.Prime 22709 := by norm_num

/-- Lucas primality certificate for `151499460061` (witness `2`). -/
theorem prime_151499460061 : Nat.Prime 151499460061 := by
  apply lucas_primality 151499460061 ((2 : Nat) : ZMod 151499460061)
  · exact zmod_pow_eq_one 151499460061 2 (151499460061 - 1) (by decide) (by decide)
  · intro q hq hdvd
    have hfac : (151499460061 : Nat) - 1 = 2 ^ 2 * (3 ^ 2 * (5 * (13 * (2851 * (22709))))) := by decide
    rw [hfac] at hdvd
    rcases (Nat.Prime.dvd_mul hq).mp hdvd with h | hdvd
    · have hd := Nat.Prime.dvd_of_dvd_pow hq h
      have he := (Nat.prime_dvd_prime_iff_eq hq prime_2).mp hd
      subst he
      exact zmod_pow_ne_one 151499460061 2 ((151499460061 - 1) / 2) 151499460060 (by decide) (by decide) (by decide) (by decide)
    rcases (Nat.Prime.dvd_mul hq).mp hdvd with h | hdvd
    · have hd := Nat.Prime.dvd_of_dvd_pow hq h
      have he := (Nat.prime_dvd_prime_iff_eq hq prime_3).mp hd
      subst he
      exact zmod_pow_ne_one 151499460061 2 ((151499460061 - 1) / 3) 45526110072 (by decide) (by decide) (by decide) (by decide)
    rcases (Nat.Prime.dvd_mul hq).mp hdvd with h | hdvd
    · have hd := h
      have he := (Nat.prime_dvd_prime_iff_eq hq prime_5).mp hd
      subst he
      exact zmod_pow_ne_one 151499460061 2 ((151499460061 - 1) / 5) 34680451228 (by decide) (by decide) (by decide) (by decide)
    rcases (Nat.Prime.dvd_mul hq).mp hdvd with h | hdvd
    · have hd := h
      have he := (Nat.prime_dvd_prime_iff_eq hq prime_13).mp hd
      subst he
      exact zmod_pow_ne_one 151499460061 2 ((151499460061 - 1) / 13) 48378982627 (by decide) (by decide) (by decide) (by decide)
    rcases (Nat.Prime.dvd_mul hq).mp hdvd with h | hdvd
    · have hd := h
      have he := (Nat.prime_dvd_prime_iff_eq hq prime_2851).mp hd
      subst he
      exact zmod_pow_ne_one 151499460061 2 ((151499460061 - 1) / 2851) 129043464490 (by decide) (by decide) (by decide) (by decide)
    have h := hdvd
    have hd := h
    have he := (Nat.prime_dvd_prime_iff_eq hq prime_22709).mp hd
    subst he
    exact zmod_pow_ne_one 151499460061 2 ((151499460061 - 1) / 22709) 100700557300 (by decide) (by decide) (by decide) (by decide)

theorem prime_32533 : Nat.Prime 32533 := by norm_num

theorem prime_3686357 : Nat.Prime 3686357 := by norm_num

/-- Lucas primality certificate for `719569513687` (witness `3`). -/
theorem prime_719569513687 : Nat.Prime 719569513687 := by
  apply lucas_primality 719569513687 ((3 : Nat) : ZMod 719569513687)
  · exact zmod_pow_eq_one 719569513687 3 (719569513687 - 1) (by decide) (by decide)
  · intro q hq hdvd
    have hfac : (719569513687 : Nat) - 1 = 2 * (3 * (32533 * (3686357))) := by decide
    rw [hfac] at hdvd
    rcases (Nat.Prime.dvd_mul hq).mp hdvd with h | hdvd
    · have hd := h
      have he := (Nat.prime_dvd_prime_iff_eq hq prime_2).mp hd
      subst he
      exact zmod_pow_ne_one 719569513687 3 ((719569513687 - 1) / 2) 719569513686 (by decide) (by decide) (by decide) (by decide)
    rcases (Nat.Prime.dvd_mul hq).mp hdvd with h | hdvd
    · have hd := h
      have he := (Nat.prime_dvd_prime_iff_eq hq prime_3).mp hd
      subst he
      exact zmod_pow_ne_one 719569513687 3 ((719569513687 - 1) / 3) 107813258430 (by decide) (by decide) (by decide) (by decide)
    rcases (Nat.Prime.dvd_mul hq).mp hdvd with h | hdvd
    · have hd := h
      have he := (Nat.prime_dvd_prime_iff_eq hq prime_32533).mp hd
      subst he
      exact zmod_pow_ne_one 719569513687 3 ((719569513687 - 1) / 32533) 74305007017 (by decide) (by decide) (by decide) (by decide)
    have h := hdvd
    have hd := h
    have he := (Nat.prime_dvd_prime_iff_eq hq prime_3686357).mp hd
    subst he
    exact zmod_pow_ne_one 719569513687 3 ((719569513687 - 1) / 3686357) 416358959258 (by decide) (by decide) (by decide) (by decide)

/-- Lucas primality certificate for `49712609355733181957277501974736893` (witness `2`). -/
theorem prime_49712609355733181957277501974736893 : Nat.Prime 49712609355733181957277501974736893 := by
  apply lucas_primality 49712609355733181957277501974736893 ((2 : Nat) : ZMod 49712609355733181957277501974736893)
  · exact zmod_pow_eq_one 49712609355733181957277501974736893 2 (49712609355733181957277501974736893 - 1) (by decide) (by decide)
  · intro q hq hdvd
    have hfac : (49712609355733181957277501974736893 : Nat) - 1 = 2 ^ 2 * (607 * (187816627 * (151499460061 * (719569513687)))) := by decide
    rw [hfac] at hdvd
    rcases (Nat.Prime.dvd_mul hq).mp hdvd with h | hdvd
    · have hd := Nat.Prime.dvd_of_dvd_pow hq h
      have he := (Nat.prime_dvd_prime_iff_eq hq prime_2).mp hd
      subst he
      exact zmod_pow_ne_one 49712609355733181957277501974736893 2 ((49712609355733181957277501974736893 - 1) / 2) 49712609355733181957277501974736892 (by decide) (by decide) (by decide) (by decide)
    rcases (Nat.Prime.dvd_mul hq).mp hdvd with h | hdvd
    · have hd := h
      have he := (Nat.prime_dvd_prime_iff_eq hq prime_607).mp hd
      subst he
      exact zmod_pow_ne_one 49712609355733181957277501974736893 2 ((49712609355733181957277501974736893 - 1) / 607) 16617160728202730395511439744308867 (by decide) (by decide) (by decide) (by decide)
    rcases (Nat.Prime.dvd_mul hq).mp hdvd with h | hdvd
    · have hd := h
      have he := (Nat.prime_dvd_prime_iff_eq hq prime_187816627).mp hd
      subst he
      exact zmod_pow_ne_one 49712609355733181957277501974736893 2 ((49712609355733181957277501974736893 - 1) / 187816627) 12880728779282544977812017180011428 (by decide) (by decide) (by decide) (by decide)
    rcases (Nat.Prime.dvd_mul hq).mp hdvd with h | hdvd
    · have hd := h
      have he := (Nat.prime_dvd_prime_iff_eq hq prime_151499460061).mp hd
      subst he
      exact zmod_pow_ne_one 49712609355733181957277501974736893 2 ((49712609355733181957277501974736893 - 1) / 151499460061) 48671800463545980605052623112158223 (by decide) (by decide) (by decide) (by decide)
    have h := hdvd
    have hd := h
    have he := (Nat.prime_dvd_prime_iff_eq hq prime_719569513687).mp hd
    subst he
    exact zmod_pow_ne_one 49712609355733181957277501974736893 2 ((49712609355733181957277501974736893 - 1) / 719569513687) 3682321743096489226585743440975126 (by decide) (by decide) (by decide) (by decide)

/-- Lucas primality certificate for `3059213862715144055733503214373292934438943635608167530247` (witness `5`). -/
theorem prime_3059213862715144055733503214373292934438943635608167530247 : Nat.Prime 3059213862715144055733503214373292934438943635608167530247 := by
  apply lucas_primality 3059213862715144055733503214373292934438943635608167530247 ((5 : Nat) : ZMod 3059213862715144055733503214373292934438943635608167530247)
  · exact zmod_pow_eq_one 3059213862715144055733503214373292934438943635608167530247 5 (3059213862715144055733503214373292934438943635608167530247 - 1) (by decide) (by decide)
  · intro q hq hdvd
    have hfac : (3059213862715144055733503214373292934438943635608167530247 : Nat) - 1 = 2 * (3 ^ 3 * (1139592334882447158893 * (49712609355733181957277501974736893))) := by decide
    rw [hfac] at hdvd
    rcases (Nat.Prime.dvd_mul hq).mp hdvd with h | hdvd
    · have hd := h
      have he := (Nat.prime_dvd_prime_iff_eq hq prime_2).mp hd
      subst he
      exact zmod_pow_ne_one 3059213862715144055733503214373292934438943635608167530247 5 ((3059213862715144055733503214373292934438943635608167530247 - 1) / 2) 3059213862715144055733503214373292934438943635608167530246 (by decide) (by decide) (by decide) (by decide)
    rcases (Nat.Prime.dvd_mul hq).mp hdvd with h | hdvd
    · have hd := Nat.Prime.dvd_of_dvd_pow hq h
      have he := (Nat.prime_dvd_prime_iff_eq hq prime_3).mp hd
      subst he
      exact zmod_pow_ne_one 3059213862715144055733503214373292934438943635608167530247 5 ((3059213862715144055733503214373292934438943635608167530247 - 1) / 3) 1027798838672406232356457375274717131443517430824898395322 (by decide) (by decide) (by decide) (by decide)
    rcases (Nat.Prime.dvd_mul hq).mp hdvd with h | hdvd
    · have hd := h
      have he := (Nat.prime_dvd_prime_iff_eq hq prime_1139592334882447158893).mp hd
      subst he
      exact zmod_pow_ne_one 3059213862715144055733503214373292934438943635608167530247 5 ((3059213862715144055733503214373292934438943635608167530247 - 1) / 1139592334882447158893) 521760961837707286523932685288555410986056990585329671365 (by decide) (by decide) (by decide) (by decide)
    have h := hdvd
    have hd := h
    have he := (Nat.prime_dvd_prime_iff_eq hq prime_49712609355733181957277501974736893).mp hd
    subst he
    exact zmod_pow_ne_one 3059213862715144055733503214373292934438943635608167530247 5 ((3059213862715144055733503214373292934438943635608167530247 - 1) / 49712609355733181957277501974736893) 567442080946913638505119176565108528276846524448244341321 (by decide) (by decide) (by decide) (by decide)

/-- Lucas primality certificate for `MODULUS` (witness `11`). -/
theorem MODULUS_prime : Nat.Prime MODULUS := by
  apply lucas_primality MODULUS ((11 : Nat) : ZMod MODULUS)
  · exact zmod_pow_eq_one MODULUS 11 (MODULUS - 1) (by decide) (by decide)
  · intro q hq hdvd
    have hfac : (MODULUS : Nat) - 1 = 2 * (5 ^ 3 * (23 * (1667 * (149459 * (17543087 * (3059213862715144055733503214373292934438943635608167530247)))))) := by decide
    rw [hfac] at hdvd
    rcases (Nat.Prime.dvd_mul hq).mp hdvd with h | hdvd
    · have hd := h
      have he := (Nat.prime_dvd_prime_iff_eq hq prime_2).mp hd
      subst he
      exact zmod_pow_ne_one MODULUS 11 ((MODULUS - 1) / 2) 76884956397045344220809746629001649093037950200943055203735601445031516197750 (by decide) (by decide) (by decide) (by decide)
    rcases (Nat.Prime.dvd_mul hq).mp hdvd with h | hdvd
    · have hd := Nat.Prime.dvd_of_dvd_pow hq h
      have he := (Nat.prime_dvd_prime_iff_eq hq prime_5).mp hd
      subst he
      exact zmod_pow_ne_one MODULUS 11 ((MODULUS - 1) / 5) 61903090065913916024564521212430277410029716880064333570420394531196587531179 (by decide) (by decide) (by decide) (by decide)
    rcases (Nat.Prime.dvd_mul hq).mp hdvd with h | hdvd
    · have hd := h
      have he := (Nat.prime_dvd_prime_iff_eq hq prime_23).mp hd
      subst he
      exact zmod_pow_ne_one MODULUS 11 ((MODULUS - 1) / 23) 18699317457530403243245296141416421123615550376041745771379152748093939888874 (by decide) (by decide) (by decide) (by decide)
    rcases (Nat.Prime.dvd_mul hq).mp hdvd with h | hdvd
    · have hd := h
      have he := (Nat.prime_dvd_prime_iff_eq hq prime_1667).mp hd
      subst he
      exact zmod_pow_ne_one MODULUS 11 ((MODULUS - 1) / 1667) 58557534660338828642878595752140567935894926225220542810694617846743997107270 (by decide) (by decide) (by decide) (by decide)
    rcases (Nat.Prime.dvd_mul hq).mp hdvd with h | hdvd
    · have hd := h
      have he := (Nat.prime_dvd_prime_iff_eq hq prime_149459).mp hd
      subst he
      exact zmod_pow_ne_one MODULUS 11 ((MODULUS - 1) / 149459) 51300808998977382004838144553970878785819952633269388430828167872259294055141 (by decide) (by decide) (by decide) (by decide)
    rcases (Nat.Prime.dvd_mul hq).mp hdvd with h | hdvd
    · have hd := h
      have he := (Nat.prime_dvd_prime_iff_eq hq prime_17543087).mp hd
      subst he
      exact zmod_pow_ne_one MODULUS 11 ((MODULUS - 1) / 17543087) 20748152604533943298248477162990153520006732791641268932313496598715432537439 (by decide) (by decide) (by decide) (by decide)
    have h := hdvd
    have hd := h
    have he := (Nat.prime_dvd_prime_iff_eq hq prime_3059213862715144055733503214373292934438943635608167530247).mp hd
    subst he
    exact zmod_pow_ne_one MODULUS 11 ((MODULUS - 1) / 3059213862715144055733503214373292934438943635608167530247) 1178432644070506000892999328486741597017178034484338481947890870457665756155 (by decide) (by decide) (by decide) (by decide)
/-! ## Correctness of `pow_vartime` -/

theorem wordsVal_append (xs ys : List Nat) :
    wordsVal (xs ++ ys) = wordsVal xs + 2 ^ (64 * xs.length) * wordsVal ys := by
  induction xs with
  | nil => simp [wordsVal]
  | cons x xs ih =>
    show x + 2 ^ 64 * wordsVal (xs ++ ys)
      = x + 2 ^ 64 * wordsVal xs + 2 ^ (64 * (xs.length + 1)) * wordsVal ys
    rw [ih, Nat.mul_add, ← Nat.add_assoc, ← mul_assoc, ← pow_add]
    have h : 64 + 64 * xs.length = 64 * (xs.length + 1) := by ring
    rw [h]

theorem mod_two_pow_succ (w j : Nat) :
    w % 2 ^ (j + 1) = w / 2 ^ j % 2 * 2 ^ j + w % 2 ^ j := by
  rw [pow_succ, Nat.mod_mul]
  ring

theorem powBits_toCan (base : FieldElement) (w : Nat) :
    ∀ j res, (FieldElement.powBits base res w j).to_canonical
      = res.to_canonical ^ 2 ^ j * base.to_canonical ^ (w % 2 ^ j) % MODULUS := by
  intro j
  induction j with
  | zero =>
    intro res
    show res.to_canonical = res.to_canonical ^ 1 * base.to_canonical ^ (w % 1) % MODULUS
    rw [Nat.mod_one, pow_zero, pow_one, mul_one, Nat.mod_eq_of_lt (toCan_lt res)]
  | succ j ih =>
    intro res
    have hbit : (w >>> j) &&& 1 = w / 2 ^ j % 2 := by
      rw [Nat.and_one_is_mod, Nat.shiftRight_eq_div_pow]
    have hstep : FieldElement.powBits base res w (j + 1)
        = FieldElement.powBits base
            (if w / 2 ^ j % 2 = 1 then (res.square).multiply base else res.square) w j := by
      show FieldElement.powBits base
          (if (w >>> j) &&& 1 = 1 then (res.square).multiply base else res.square) w j = _
      rw [hbit]
    rw [hstep, ih]
    have htr : (if w / 2 ^ j % 2 = 1 then (res.square).multiply base else res.square).to_canonical
        ≡ res.to_canonical * res.to_canonical * base.to_canonical ^ (w / 2 ^ j % 2)
          [MOD MODULUS] := by
      by_cases h1 : w / 2 ^ j % 2 = 1
      · rw [if_pos h1, h1, pow_one, toCan_mul, square_eq_multiply, toCan_mul,
          Nat.mod_mul_mod]
        exact Nat.mod_modEq _ _
      · have h0 : w / 2 ^ j % 2 = 0 := by omega
        rw [if_neg h1, h0, pow_zero, mul_one, square_eq_multiply, toCan_mul]
        exact Nat.mod_modEq _ _
    have hcong := (htr.pow (2 ^ j)).mul
      (Nat.ModEq.refl (base.to_canonical ^ (w % 2 ^ j)))
    have heq : (res.to_canonical * res.to_canonical * base.to_canonical ^ (w / 2 ^ j % 2)) ^ 2 ^ j
        * base.to_canonical ^ (w % 2 ^ j)
        = res.to_canonical ^ 2 ^ (j + 1) * base.to_canonical ^ (w % 2 ^ (j + 1)) := by
      rw [mod_two_pow_succ, pow_succ, pow_add]
      ring
    rw [← heq]
    exact hcong

theorem powWords_toCan (base : FieldElement) (exp : List Nat)
    (hw : ∀ x ∈ exp, x < 2 ^ 64) :
    ∀ i res, i ≤ exp.length →
      (FieldElement.powWords base res exp i).to_canonical
        = res.to_canonical ^ 2 ^ (64 * i)
          * base.to_canonical ^ wordsVal (exp.take i) % MODULUS := by
  intro i
  induction i with
  | zero =>
    intro res _
    show res.to_canonical
      = res.to_canonical ^ 1 * base.to_canonical ^ wordsVal [] % MODULUS
    show res.to_canonical
      = res.to_canonical ^ 1 * base.to_canonical ^ 0 % MODULUS
    rw [pow_one, pow_zero, mul_one, Nat.mod_eq_of_lt (toCan_lt res)]
  | succ i ih =>
    intro res hle
    have hlt : i < exp.length := by omega
    show (FieldElement.powWords base
        (FieldElement.powBits base res (exp.getD i 0) 64) exp i).to_canonical = _
    rw [ih _ (by omega), powBits_toCan]
    have hwi : exp.getD i 0 < 2 ^ 64 := by
      apply hw
      rw [List.getD_eq_getElem exp 0 hlt]
      exact List.getElem_mem hlt
    rw [Nat.mod_eq_of_lt hwi]
    have htake : exp.take (i + 1) = exp.take i ++ [exp.getD i 0] := by
      rw [List.take_succ, List.getElem?_eq_getElem hlt]
      rw [List.getD_eq_getElem exp 0 hlt]
      rfl
    have hlen : (exp.take i).length = i := List.length_take_of_le (by omega)
    have hval : wordsVal (exp.take (i + 1))
        = wordsVal (exp.take i) + exp.getD i 0 * 2 ^ (64 * i) := by
      rw [htake, wordsVal_append, hlen]
      show _ = wordsVal (exp.take i) + exp.getD i 0 * 2 ^ (64 * i)
      have h1 : wordsVal [exp.getD i 0] = exp.getD i 0 := by
        show exp.getD i 0 + 2 ^ 64 * 0 = exp.getD i 0
        omega
      rw [h1]
      ring
    have hcong := ((Nat.mod_modEq (res.to_canonical ^ 2 ^ 64
        * base.to_canonical ^ exp.getD i 0) MODULUS).pow (2 ^ (64 * i))).mul
      (Nat.ModEq.refl (base.to_canonical ^ wordsVal (exp.take i)))
    have heq : (res.to_canonical ^ 2 ^ 64 * base.to_canonical ^ exp.getD i 0) ^ 2 ^ (64 * i)
        * base.to_canonical ^ wordsVal (exp.take i)
        = res.to_canonical ^ 2 ^ (64 * (i + 1))
          * base.to_canonical ^ wordsVal (exp.take (i + 1)) := by
      rw [hval]
      have h2 : 64 * (i + 1) = 64 + 64 * i := by ring
      rw [h2, pow_add, pow_add]
      ring
    rw [← heq]
    exact hcong

/-! ## The claims -/

/-- C1 (documented defect): `to_bytes` serializes the raw internal Montgomery
residue `self.0` without converting out of the Montgomery domain, so `ONE`
does not re-encode to 31 zero bytes followed by `0x01`, and
`from_bytes (to_bytes ONE)` is not `some ONE`: the claimed round trip fails
already at `ONE`. -/
theorem C1_to_bytes_roundtrip_fails :
    FieldElement.from_bytes (FieldElement.to_bytes FieldElement.ONE)
      ≠ some FieldElement.ONE ∧
    FieldElement.to_bytes FieldElement.ONE ≠ natToBeBytes 1 ∧
    FieldElement.to_bytes FieldElement.ONE = natToBeBytes (R % MODULUS) :=
  ⟨by decide, by decide, by decide⟩

/-- C2 (counterexample): the wrong-length error and the out-of-range error
of `from_slice` are the same value of the unit type `Error`, hence not
distinguishable by any caller: the empty slice and the 32-byte encoding of
the modulus produce identical results. -/
theorem C2_errors_same :
    FieldElement.from_slice [] = Except.error Error.Error ∧
    FieldElement.from_slice (natToBeBytes MODULUS) = Except.error Error.Error ∧
    FieldElement.from_slice [] = FieldElement.from_slice (natToBeBytes MODULUS) :=
  ⟨rfl, rfl, rfl⟩

/-- C2 (amended): `from_slice` rejects every slice whose length is not 32,
and rejects a 32-byte slice whose big-endian value is `≥ MODULUS`; but both
rejections return the single unit value `Error.Error`, so the two error
cases are not distinguishable. -/
theorem C2_from_slice_errors (s : List Nat) :
    (s.length ≠ 32 → FieldElement.from_slice s = Except.error Error.Error) ∧
    (s.length = 32 → MODULUS ≤ beBytesToNat s →
      FieldElement.from_slice s = Except.error Error.Error) := by
  constructor
  · intro h
    unfold FieldElement.from_slice
    rw [if_neg h]
  · intro hlen hge
    unfold FieldElement.from_slice
    rw [if_pos hlen]
    have h : FieldElement.from_bytes s = none := by
      unfold FieldElement.from_bytes FieldElement.from_uint
      rw [if_neg (by omega)]
    rw [h]

/-- Witness for `C2_from_slice_errors`: the empty slice (wrong length) and
the modulus encoding (out of range). -/
theorem C2_from_slice_errors_witness :
    (([] : List Nat).length ≠ 32 ∧
      FieldElement.from_slice [] = Except.error Error.Error) ∧
    ((natToBeBytes MODULUS).length = 32 ∧
      MODULUS ≤ beBytesToNat (natToBeBytes MODULUS) ∧
      FieldElement.from_slice (natToBeBytes MODULUS) = Except.error Error.Error) :=
  ⟨⟨by decide, (C2_from_slice_errors []).1 (by decide)⟩,
   ⟨by decide, by decide,
    (C2_from_slice_errors (natToBeBytes MODULUS)).2 (by decide) (by decide)⟩⟩

/-- C3 (counterexample): the placeholder 2-adic constants do not fail on
use — they are silently the ordinary value `ZERO` (mathematically wrong:
`ZERO` is not a root of unity, its square is not `ONE`). -/
theorem C3_constants_silently_zero :
    FieldElement.ROOT_OF_UNITY = FieldElement.ZERO ∧
    FieldElement.multiply FieldElement.ROOT_OF_UNITY FieldElement.ROOT_OF_UNITY
      ≠ FieldElement.ONE ∧
    FieldElement.MULTIPLICATIVE_GENERATOR = FieldElement.ZERO :=
  ⟨rfl, by decide, rfl⟩

/-- C3 (amended): `sqrt` does fail loudly on every input (the `todo!` panic,
modelled as `Except.error`), but the placeholder 2-adic constants are
silently `ZERO` (and `S = 0`) — ordinary values rather than failures, and
incorrect ones: `ZERO` times anything can never be `ONE`. -/
theorem C3_sqrt_aborts_constants_placeholder :
    (∀ a : FieldElement, FieldElement.sqrt a = Except.error "sqrt not implemented") ∧
    FieldElement.MULTIPLICATIVE_GENERATOR = FieldElement.ZERO ∧
    FieldElement.S = 0 ∧
    FieldElement.ROOT_OF_UNITY = FieldElement.ZERO ∧
    FieldElement.ROOT_OF_UNITY_INV = FieldElement.ZERO ∧
    FieldElement.DELTA = FieldElement.ZERO ∧
    (∀ x : FieldElement,
      FieldElement.multiply FieldElement.ZERO x ≠ FieldElement.ONE) := by
  refine ⟨fun a => rfl, rfl, rfl, rfl, rfl, rfl, ?_⟩
  intro x h
  have hm : (FieldElement.multiply FieldElement.ZERO x).mont = 0 := by
    show 0 * x.mont * RINV % MODULUS = 0
    simp
  rw [h] at hm
  exact absurd hm (by decide)

/-- C5: the residue transform round-trips: `to_canonical ∘ from_uint_unchecked`
is the identity on `[0, MODULUS)`, and conversely every in-range internal
residue is restored by `from_uint_unchecked ∘ to_canonical`; the two
conversions are mutually inverse bijections on `[0, MODULUS)`. -/
theorem C5_residue_roundtrip :
    (∀ x : Nat, x < MODULUS →
      (FieldElement.from_uint_unchecked x).to_canonical = x) ∧
    (∀ m : Nat, m < MODULUS →
      FieldElement.from_uint_unchecked (FieldElement.to_canonical ⟨m⟩) = ⟨m⟩) :=
  ⟨toCan_from_uint_unchecked, from_uint_unchecked_toCan⟩

/-- Witness for `C5_residue_roundtrip` at `x = 5`, `m = 7`. -/
theorem C5_residue_roundtrip_witness :
    (5 < MODULUS ∧ (FieldElement.from_uint_unchecked 5).to_canonical = 5) ∧
    (7 < MODULUS ∧
      FieldElement.from_uint_unchecked (FieldElement.to_canonical ⟨7⟩) = ⟨7⟩) :=
  ⟨⟨by decide, C5_residue_roundtrip.1 5 (by decide)⟩,
   ⟨by decide, C5_residue_roundtrip.2 7 (by decide)⟩⟩

/-- C6: `from_bytes` returns `none` exactly when the big-endian value of the
bytes is `≥ MODULUS`, and `some` of the element wrapping that value
otherwise; in particular the big-endian bytes of the modulus itself decode
to `none`. -/
theorem C6_from_bytes_range :
    (∀ bs : List Nat,
      (FieldElement.from_bytes bs = none ↔ MODULUS ≤ beBytesToNat bs) ∧
      (beBytesToNat bs < MODULUS →
        FieldElement.from_bytes bs
          = some (FieldElement.from_uint_unchecked (beBytesToNat bs)))) ∧
    FieldElement.from_bytes (natToBeBytes MODULUS) = none := by
  constructor
  · intro bs
    constructor
    · unfold FieldElement.from_bytes FieldElement.from_uint
      split_ifs with h
      · simp only [reduceCtorEq, false_iff]
        omega
      · simp only [true_iff]
        omega
    · intro h
      unfold FieldElement.from_bytes FieldElement.from_uint
      rw [if_pos h]
  · decide

/-- Witness for `C6_from_bytes_range` at the encoding of `1`. -/
theorem C6_from_bytes_range_witness :
    beBytesToNat (natToBeBytes 1) < MODULUS ∧
    FieldElement.from_bytes (natToBeBytes 1)
      = some (FieldElement.from_uint_unchecked (beBytesToNat (natToBeBytes 1))) :=
  ⟨by decide, (C6_from_bytes_range.1 (natToBeBytes 1)).2 (by decide)⟩

/-- C7: closure: the result of every arithmetic operation is a valid
internal representation whose canonical value is `< MODULUS`; no operation
overflows (all are total functions). -/
theorem C7_closure (a b : FieldElement) :
    ((a.add b).mont < MODULUS ∧ (a.add b).to_canonical < MODULUS) ∧
    ((a.sub b).mont < MODULUS ∧ (a.sub b).to_canonical < MODULUS) ∧
    (a.neg.mont < MODULUS ∧ a.neg.to_canonical < MODULUS) ∧
    ((a.multiply b).mont < MODULUS ∧ (a.multiply b).to_canonical < MODULUS) ∧
    (a.square.mont < MODULUS ∧ a.square.to_canonical < MODULUS) := by
  have hsub : (a.sub b).mont < MODULUS := by
    show (((a.mont : Int) - (b.mont : Int)) % (MODULUS : Int)).toNat < MODULUS
    have h1 : (0 : Int) < (MODULUS : Int) := by exact_mod_cast MODULUS_pos
    have h2 := Int.emod_lt_of_pos ((a.mont : Int) - (b.mont : Int)) h1
    have h3 := Int.emod_nonneg ((a.mont : Int) - (b.mont : Int)) (ne_of_gt h1)
    omega
  have hneg : a.neg.mont < MODULUS := by
    show ((-(a.mont : Int)) % (MODULUS : Int)).toNat < MODULUS
    have h1 : (0 : Int) < (MODULUS : Int) := by exact_mod_cast MODULUS_pos
    have h2 := Int.emod_lt_of_pos (-(a.mont : Int)) h1
    have h3 := Int.emod_nonneg (-(a.mont : Int)) (ne_of_gt h1)
    omega
  exact ⟨⟨Nat.mod_lt _ MODULUS_pos, toCan_lt _⟩,
    ⟨hsub, toCan_lt _⟩, ⟨hneg, toCan_lt _⟩,
    ⟨Nat.mod_lt _ MODULUS_pos, toCan_lt _⟩,
    ⟨Nat.mod_lt _ MODULUS_pos, toCan_lt _⟩⟩

/-- C8: `double` is literally `add` of an element with itself, and `square`
computes the same value as `multiply` of an element with itself. -/
theorem C8_double_square (a : FieldElement) :
    a.double = a.add a ∧ a.square = a.multiply a :=
  ⟨rfl, rfl⟩

/-- C9: `pow_vartime` raises the base to the little-endian multi-word
exponent, modulo `MODULUS`: the canonical value of the result equals
`base ^ (value of exp) mod MODULUS`, for genuine 64-bit words. -/
theorem C9_pow_vartime (base : FieldElement) (exp : List Nat)
    (hw : ∀ x ∈ exp, x < 2 ^ 64) :
    (base.pow_vartime exp).to_canonical
      = base.to_canonical ^ wordsVal exp % MODULUS := by
  show (FieldElement.powWords base FieldElement.ONE exp exp.length).to_canonical = _
  rw [powWords_toCan base exp hw exp.length FieldElement.ONE le_rfl, toCan_ONE,
    one_pow, one_mul, List.take_length]

/-- Witness for `C9_pow_vartime`: `3 ^ 5 = 243` via the word list `[5]`. -/
theorem C9_pow_vartime_witness :
    (∀ x ∈ [(5 : Nat)], x < 2 ^ 64) ∧
    ((FieldElement.from_u64 3).pow_vartime [5]).to_canonical
      = (FieldElement.from_u64 3).to_canonical ^ wordsVal [5] % MODULUS :=
  ⟨by decide, C9_pow_vartime (FieldElement.from_u64 3) [5] (by decide)⟩

theorem toCan_ZERO : FieldElement.ZERO.to_canonical = 0 := by
  show 0 * RINV % MODULUS = 0
  simp

/-- C4: inversion: for every in-range nonzero field element `a`,
`invert a` returns `some inv` with `multiply a inv = ONE`; and
`invert ZERO = none`. -/
theorem C4_invert_correct :
    (∀ a : FieldElement, a.mont < MODULUS → a ≠ FieldElement.ZERO →
      ∃ inv, a.invert = some inv ∧ a.multiply inv = FieldElement.ONE) ∧
    FieldElement.invert FieldElement.ZERO = none := by
  constructor
  · intro a ha hne
    haveI : Fact (Nat.Prime MODULUS) := ⟨MODULUS_prime⟩
    have hM1 : 1 < MODULUS := MODULUS_prime.one_lt
    have hz : a.is_zero = false := by
      unfold FieldElement.is_zero
      exact decide_eq_false hne
    refine ⟨a.invert_unchecked, ?_, ?_⟩
    · unfold FieldElement.invert
      rw [hz]
      rfl
    · have hxlt : a.to_canonical < MODULUS := toCan_lt a
      have hxne : a.to_canonical ≠ 0 := by
        intro h0
        apply hne
        apply toCan_inj a FieldElement.ZERO ha MODULUS_pos
        rw [h0, toCan_ZERO]
      have hpm : powMod a.to_canonical (MODULUS - 2) MODULUS
          = a.to_canonical ^ (MODULUS - 2) % MODULUS := powMod_eq _ _ _ (by decide)
      have htci : a.invert_unchecked.to_canonical
          = a.to_canonical ^ (MODULUS - 2) % MODULUS := by
        unfold FieldElement.invert_unchecked
        rw [hpm]
        exact toCan_from_uint_unchecked _ (Nat.mod_lt _ MODULUS_pos)
      have hflt : a.to_canonical ^ (MODULUS - 1) % MODULUS = 1 := by
        have hcast : ((a.to_canonical : Nat) : ZMod MODULUS) ≠ 0 := by
          intro h0
          have hval := congrArg ZMod.val h0
          rw [ZMod.val_cast_of_lt hxlt, ZMod.val_zero] at hval
          exact hxne hval
        have h1 : ((a.to_canonical : Nat) : ZMod MODULUS) ^ (MODULUS - 1) = 1 :=
          ZMod.pow_card_sub_one_eq_one hcast
        have h2 : ((a.to_canonical ^ (MODULUS - 1) : Nat) : ZMod MODULUS)
            = ((1 : Nat) : ZMod MODULUS) := by
          rw [Nat.cast_pow, h1, Nat.cast_one]
        have h3 : a.to_canonical ^ (MODULUS - 1) % MODULUS = 1 % MODULUS :=
          (ZMod.natCast_eq_natCast_iff _ _ _).mp h2
        rw [h3]
        exact Nat.mod_eq_of_lt hM1
      have hmul : (a.multiply a.invert_unchecked).to_canonical = 1 := by
        rw [toCan_mul, htci, Nat.mul_mod_mod]
        have hexp : a.to_canonical * a.to_canonical ^ (MODULUS - 2)
            = a.to_canonical ^ (MODULUS - 1) := by
          rw [← pow_succ']
          have h : MODULUS - 2 + 1 = MODULUS - 1 := by omega
          rw [h]
        rw [hexp]
        exact hflt
      apply toCan_inj
      · show a.mont * a.invert_unchecked.mont * RINV % MODULUS < MODULUS
        exact Nat.mod_lt _ MODULUS_pos
      · exact ONE_mont_lt
      · rw [hmul, toCan_ONE]
  · decide

/-- Witness for `C4_invert_correct` at `a = from_u64 2`. -/
theorem C4_invert_correct_witness :
    (FieldElement.from_u64 2).mont < MODULUS ∧
    FieldElement.from_u64 2 ≠ FieldElement.ZERO ∧
    ∃ inv, (FieldElement.from_u64 2).invert = some inv ∧
      (FieldElement.from_u64 2).multiply inv = FieldElement.ONE :=
  ⟨by decide, by decide,
   C4_invert_correct.1 (FieldElement.from_u64 2) (by decide) (by decide)⟩

/-- C10: `TWO_INV` is the genuine inverse of two:
`multiply TWO_INV (from_u64 2) = ONE`. -/
theorem C10_TWO_INV_inverse_of_two :
    FieldElement.multiply FieldElement.TWO_INV (FieldElement.from_u64 2)
      = FieldElement.ONE := by decide

end BP256
